import Mathlib

set_option maxHeartbeats 1000000

namespace ChatClient

/- Shallow embedding of the chat client's session/stream core
   (src/web/app/store.js, src/web/app/api.js, src/web/app/api/http.js).

   Section 1 embeds the SSE streaming reader of `api.streamMessage`
   (src/web/app/api.js): decoded text is modelled as `List Char`; the byte
   decoding step (`TextDecoder`) is outside the embedding, so a "chunk" here is
   the decoded text of one `reader.read()` result.  The reader appends each
   chunk to a buffer, splits the buffer on the blank-line frame separator
   (JS `buf.split('\n\n')`), keeps the final partial piece as the new buffer
   (JS `buf = parts.pop() || ''`), and for every complete frame takes the first
   line starting with `"data: "`, strips that 6-character prefix, and either
   ends the stream (payload `"[DONE]"`, JS `onEnd?.(); return;`) or emits the
   payload as a token (JS `onChunk?.(data)`). -/

/-- Callback invocation: `tok` = `onChunk`, `fin` = `onEnd`, `err` = `onError`. -/
inductive Ev where
  | tok (d : List Char)
  | fin
  | err
deriving DecidableEq, Repr

/-- Helper for left-to-right splitting: prepend a character to the first part. -/
def consHead (c : Char) : List (List Char) → List (List Char)
  | [] => [[c]]
  | h :: t => (c :: h) :: t

/-- JS `buf.split('\n\n')`: split on non-overlapping occurrences of the
two-newline frame separator, scanning left to right. -/
def splitFrames : List Char → List (List Char)
  | [] => [[]]
  | [c] => [[c]]
  | c :: c2 :: rest =>
    if c = '\n' ∧ c2 = '\n' then [] :: splitFrames rest
    else consHead c (splitFrames (c2 :: rest))

/-- JS `part.split('\n')`. -/
def splitLines : List Char → List (List Char)
  | [] => [[]]
  | c :: rest => if c = '\n' then [] :: splitLines rest else consHead c (splitLines rest)

/-- JS `lines.find(l => l.startsWith('data: '))` followed by `dataLine.slice(6)`. -/
def frameData (f : List Char) : Option (List Char) :=
  ((splitLines f).find? (fun l => l.take 6 == "data: ".toList)).map (fun l => l.drop 6)

/-- The end-of-stream sentinel payload. -/
def doneLit : List Char := "[DONE]".toList

/-- Reader state: the carried partial-frame buffer and whether the reader has
already ended the stream via the `[DONE]` sentinel. -/
structure RS where
  buf : List Char
  done : Bool
deriving DecidableEq, Repr

def initRS : RS := { buf := [], done := false }

/-- JS `parts.pop() || ''`: the final element of the split (the split is never
empty; the `|| ''` of the source only converts a popped `''` to itself). -/
def lastPart : List (List Char) → List Char
  | [] => []
  | [p] => p
  | _ :: rest => lastPart rest

/-- Process the complete frames of one read iteration in order, stopping at the
first `[DONE]` sentinel; frames with no `data: ` line are skipped (JS `continue`).
Returns the emitted callback events and whether the sentinel was reached. -/
def procFrames : List (List Char) → List Ev × Bool
  | [] => ([], false)
  | f :: rest =>
    match frameData f with
    | none => procFrames rest
    | some d =>
      if d = doneLit then ([Ev.fin], true)
      else
        let p := procFrames rest
        (Ev.tok d :: p.1, p.2)

/-- One iteration of the read-loop body on one decoded chunk: split the buffer
plus the chunk into parts, keep the last (partial) part as the new buffer and
process the complete frames. -/
def feed (st : RS) (chunk : List Char) : RS × List Ev :=
  if st.done then (st, [])
  else if (procFrames (splitFrames (st.buf ++ chunk)).dropLast).2 then
    ({ buf := [], done := true }, (procFrames (splitFrames (st.buf ++ chunk)).dropLast).1)
  else
    ({ buf := lastPart (splitFrames (st.buf ++ chunk)), done := false },
     (procFrames (splitFrames (st.buf ++ chunk)).dropLast).1)

/-- Run the read loop over a list of delivered chunks. -/
def runFeed (st : RS) : List (List Char) → RS × List Ev
  | [] => (st, [])
  | c :: rest =>
    ((runFeed (feed st c).1 rest).1, (feed st c).2 ++ (runFeed (feed st c).1 rest).2)

/-- The whole happy-path stream: feed every chunk, and when `reader.read()`
reports end of stream, invoke `onEnd` unless `[DONE]` already ended it. -/
def runStream (chunks : List (List Char)) : List Ev :=
  if (runFeed initRS chunks).1.done then (runFeed initRS chunks).2
  else (runFeed initRS chunks).2 ++ [Ev.fin]

example : runStream [String.toList "data: hello\n\ndata: world\n\ndata: [DONE]\n\n"]
    = [Ev.tok "hello".toList, Ev.tok "world".toList, Ev.fin] := by decide

example : runStream ["data: hel".toList, "lo\n\n".toList]
    = [Ev.tok "hello".toList, Ev.fin] := by decide

example : runStream ["data: hel".toList] = [Ev.fin] := by decide

/-! Splitting lemmas: the frame split of a concatenation equals the split of the
first piece with its trailing partial part re-split together with the second
piece.  This is exactly the buffering scheme of the read loop. -/

theorem consHead_ne_nil (c : Char) (l : List (List Char)) : consHead c l ≠ [] := by
  cases l <;> simp [consHead]

theorem splitFrames_cons₂ (c c2 : Char) (rest : List Char) :
    splitFrames (c :: c2 :: rest) =
      if c = '\n' ∧ c2 = '\n' then [] :: splitFrames rest
      else consHead c (splitFrames (c2 :: rest)) := rfl

theorem splitFrames_ne_nil (s : List Char) : splitFrames s ≠ [] := by
  induction s using splitFrames.induct with
  | case1 => simp [splitFrames]
  | case2 c => simp [splitFrames]
  | case3 c c2 rest h ih => rw [splitFrames_cons₂, if_pos h]; simp
  | case4 c c2 rest h ih => rw [splitFrames_cons₂, if_neg h]; exact consHead_ne_nil _ _

/-- Inverse of the split: interleave the separator back. -/
def joinSep : List (List Char) → List Char
  | [] => []
  | [p] => p
  | p :: rest => p ++ '\n' :: '\n' :: joinSep rest

theorem joinSep_cons (p : List Char) (l : List (List Char)) (h : l ≠ []) :
    joinSep (p :: l) = p ++ '\n' :: '\n' :: joinSep l := by
  match l with
  | x :: t => rfl

theorem joinSep_consHead (c : Char) (l : List (List Char)) (h : l ≠ []) :
    joinSep (consHead c l) = c :: joinSep l := by
  match l with
  | [p] => rfl
  | p :: q :: t => rfl

theorem joinSep_splitFrames (s : List Char) : joinSep (splitFrames s) = s := by
  induction s using splitFrames.induct with
  | case1 => rfl
  | case2 c => rfl
  | case3 c c2 rest h ih =>
    obtain ⟨h1, h2⟩ := h
    subst h1; subst h2
    rw [splitFrames_cons₂, if_pos ⟨rfl, rfl⟩,
      joinSep_cons _ _ (splitFrames_ne_nil rest), ih]
    rfl
  | case4 c c2 rest h ih =>
    rw [splitFrames_cons₂, if_neg h, joinSep_consHead _ _ (splitFrames_ne_nil _), ih]

theorem splitFrames_eq_single {s q : List Char} (h : splitFrames s = [q]) : q = s := by
  have h2 := joinSep_splitFrames s
  rw [h] at h2
  simpa [joinSep] using h2

theorem lastPart_cons (x : List Char) (l : List (List Char)) (h : l ≠ []) :
    lastPart (x :: l) = lastPart l := by
  match l with
  | y :: t => rfl

theorem lastPart_append (xs ys : List (List Char)) (h : ys ≠ []) :
    lastPart (xs ++ ys) = lastPart ys := by
  induction xs with
  | nil => rfl
  | cons x xs ih =>
    rw [List.cons_append, lastPart_cons _ _ (by simp [h]), ih]

theorem splitFrames_append (a b : List Char) :
    splitFrames (a ++ b) =
      (splitFrames a).dropLast ++ splitFrames (lastPart (splitFrames a) ++ b) := by
  induction a using splitFrames.induct with
  | case1 => simp [splitFrames, lastPart]
  | case2 c => simp [splitFrames, lastPart]
  | case3 c c2 rest h ih =>
    rw [List.cons_append, List.cons_append, splitFrames_cons₂, if_pos h, ih,
      splitFrames_cons₂, if_pos h,
      lastPart_cons _ _ (splitFrames_ne_nil rest),
      List.dropLast_cons_of_ne_nil (splitFrames_ne_nil rest), List.cons_append]
  | case4 c c2 rest h ih =>
    have hL : splitFrames ((c :: c2 :: rest) ++ b) = consHead c (splitFrames ((c2 :: rest) ++ b)) := by
      rw [show ((c :: c2 :: rest) ++ b) = c :: c2 :: (rest ++ b) from rfl,
        splitFrames_cons₂, if_neg h]
      rfl
    rw [hL, ih, splitFrames_cons₂, if_neg h]
    cases hQ : splitFrames (c2 :: rest) with
    | nil => exact absurd hQ (splitFrames_ne_nil _)
    | cons q t =>
      cases t with
      | nil =>
        -- single part: no separator inside `c2 :: rest`, and q = c2 :: rest
        have hq : q = c2 :: rest := splitFrames_eq_single hQ
        subst hq
        simp only [consHead, List.dropLast_single, List.nil_append, lastPart]
        rw [show ((c2 :: rest : List Char) ++ b) = c2 :: (rest ++ b) from rfl,
          show ((c :: c2 :: rest : List Char) ++ b) = c :: c2 :: (rest ++ b) from rfl,
          splitFrames_cons₂, if_neg h]
        rfl
      | cons q2 t2 =>
        simp only [consHead, lastPart_cons _ _ (List.cons_ne_nil q2 t2),
          List.dropLast_cons_of_ne_nil (List.cons_ne_nil q2 t2), List.cons_append]

theorem procFrames_cons (f : List Char) (rest : List (List Char)) :
    procFrames (f :: rest) =
      match frameData f with
      | none => procFrames rest
      | some d =>
        if d = doneLit then ([Ev.fin], true)
        else (Ev.tok d :: (procFrames rest).1, (procFrames rest).2) := rfl

theorem procFrames_append (xs ys : List (List Char)) :
    procFrames (xs ++ ys) =
      ((if (procFrames xs).2 then (procFrames xs).1
        else (procFrames xs).1 ++ (procFrames ys).1),
       ((procFrames xs).2 || (procFrames ys).2)) := by
  induction xs with
  | nil => simp [procFrames]
  | cons f rest ih =>
    rw [List.cons_append, procFrames_cons, procFrames_cons]
    cases hf : frameData f with
    | none => exact ih
    | some d =>
      by_cases hd : d = doneLit
      · simp [hd]
      · simp only [hd, if_false, ite_false]
        rw [ih]
        by_cases hrest : (procFrames rest).2 <;> simp [hrest]

theorem feed_done (st : RS) (c : List Char) (h : st.done = true) :
    feed st c = (st, []) := by
  simp [feed, h]

theorem feed_append (st : RS) (a b : List Char) :
    feed st (a ++ b) = ((feed (feed st a).1 b).1, (feed st a).2 ++ (feed (feed st a).1 b).2) := by
  cases hdone : st.done with
  | true => simp [feed_done _ _ hdone]
  | false =>
    have H : splitFrames (st.buf ++ (a ++ b)) =
        (splitFrames (st.buf ++ a)).dropLast ++
          splitFrames (lastPart (splitFrames (st.buf ++ a)) ++ b) := by
      rw [← List.append_assoc]
      exact splitFrames_append _ _
    have hQne := splitFrames_ne_nil (lastPart (splitFrames (st.buf ++ a)) ++ b)
    by_cases h1 : (procFrames (splitFrames (st.buf ++ a)).dropLast).2
    · have hfa : feed st a =
          ({ buf := [], done := true },
           (procFrames (splitFrames (st.buf ++ a)).dropLast).1) := by
        simp [feed, hdone, h1]
      rw [hfa]
      have hfb := feed_done ({ buf := [], done := true } : RS) b rfl
      rw [hfb]
      simp only [feed, hdone, Bool.false_eq_true, if_false, H,
        List.dropLast_append_of_ne_nil _ hQne, procFrames_append, h1]
      simp
    · have hfa : feed st a =
          ({ buf := lastPart (splitFrames (st.buf ++ a)), done := false },
           (procFrames (splitFrames (st.buf ++ a)).dropLast).1) := by
        simp [feed, hdone, h1]
      rw [hfa]
      simp only [feed, hdone, Bool.false_eq_true, if_false, H,
        List.dropLast_append_of_ne_nil _ hQne, procFrames_append, h1,
        lastPart_append _ _ hQne]
      by_cases h2 : (procFrames (splitFrames (lastPart (splitFrames (st.buf ++ a)) ++ b)).dropLast).2 <;>
        simp [h2]

theorem runFeed_join_cons (chunks : List (List Char)) :
    ∀ (c : List Char) (st : RS), runFeed st (c :: chunks) = feed st (c :: chunks).flatten := by
  induction chunks with
  | nil =>
    intro c st
    show ((runFeed (feed st c).1 []).1, (feed st c).2 ++ (runFeed (feed st c).1 []).2) = _
    simp [runFeed, List.flatten]
  | cons c2 rest ih =>
    intro c st
    rw [show (c :: c2 :: rest).flatten = c ++ (c2 :: rest).flatten from rfl, feed_append]
    rw [show runFeed st (c :: c2 :: rest) =
      ((runFeed (feed st c).1 (c2 :: rest)).1,
       (feed st c).2 ++ (runFeed (feed st c).1 (c2 :: rest)).2) from rfl]
    rw [ih c2 (feed st c).1]

theorem runFeed_cons (st : RS) (c : List Char) (rest : List (List Char)) :
    runFeed st (c :: rest) =
      ((runFeed (feed st c).1 rest).1, (feed st c).2 ++ (runFeed (feed st c).1 rest).2) := rfl

/-- Chunk-boundary invariance: however the stream text is split into read
chunks, the emitted callbacks are those of the whole text in one chunk. -/
theorem runStream_join (chunks : List (List Char)) :
    runStream chunks = runStream [chunks.flatten] := by
  cases chunks with
  | nil => rfl
  | cons c rest =>
    simp only [runStream, runFeed_join_cons rest c initRS]
    rw [show runFeed initRS [(c :: rest).flatten] =
      ((runFeed (feed initRS (c :: rest).flatten).1 []).1,
       (feed initRS (c :: rest).flatten).2 ++
         (runFeed (feed initRS (c :: rest).flatten).1 []).2) from rfl]
    simp [runFeed]

/-! Frame-level behaviour: a well-formed frame `data: t\n\n` emits exactly the
token `t`, the `[DONE]` frame ends the stream, a partial trailing frame is
buffered and never emitted. -/

theorem splitFrames_cons_ne (c : Char) (xs : List Char) (h : c ≠ '\n') :
    splitFrames (c :: xs) = consHead c (splitFrames xs) := by
  cases xs with
  | nil => rfl
  | cons x t => rw [splitFrames_cons₂, if_neg (by simp [h])]

theorem splitFrames_noSep (u : List Char) (h : '\n' ∉ u) :
    splitFrames (u ++ ['\n', '\n']) = [u, []] := by
  induction u with
  | nil => rfl
  | cons c u ih =>
    have hc : c ≠ '\n' := fun e => h (by simp [e])
    rw [List.cons_append, splitFrames_cons_ne c _ hc,
      ih (fun hm => h (List.mem_cons_of_mem _ hm))]
    rfl

theorem splitLines_noNL (u : List Char) (h : '\n' ∉ u) : splitLines u = [u] := by
  induction u with
  | nil => rfl
  | cons c u ih =>
    have hc : c ≠ '\n' := fun e => h (by simp [e])
    simp only [splitLines, if_neg hc]
    rw [ih (fun hm => h (List.mem_cons_of_mem _ hm))]
    rfl

theorem frameData_mk (t : List Char) (h : '\n' ∉ t) :
    frameData ("data: ".toList ++ t) = some t := by
  unfold frameData
  have hno : '\n' ∉ "data: ".toList ++ t := by
    intro hm
    rcases List.mem_append.mp hm with h1 | h1
    · exact absurd h1 (by decide)
    · exact h h1
  rw [splitLines_noNL _ hno]
  have h6 : ("data: ".toList : List Char).length = 6 := by decide
  have htake : ("data: ".toList ++ t).take 6 = "data: ".toList := by
    rw [← h6, List.take_left]
  have hdrop : ("data: ".toList ++ t).drop 6 = t := by
    rw [← h6, List.drop_left]
  simp [List.find?, htake, hdrop]

/-- One SSE frame carrying payload `t`. -/
def mkFrame (t : List Char) : List Char := "data: ".toList ++ t ++ ['\n', '\n']

theorem feed_mkFrame (t : List Char) (hn : '\n' ∉ t) (hd : t ≠ doneLit) :
    feed initRS (mkFrame t) = (initRS, [Ev.tok t]) := by
  have hno : '\n' ∉ "data: ".toList ++ t := by
    intro hm
    rcases List.mem_append.mp hm with h1 | h1
    · exact absurd h1 (by decide)
    · exact hn h1
  have hsp : splitFrames (mkFrame t) = ["data: ".toList ++ t, []] := by
    show splitFrames (("data: ".toList ++ t) ++ ['\n', '\n']) = _
    exact splitFrames_noSep _ hno
  have hproc : procFrames (splitFrames (mkFrame t)).dropLast = ([Ev.tok t], false) := by
    rw [hsp]
    show procFrames ["data: ".toList ++ t] = _
    rw [procFrames_cons, frameData_mk t hn]
    simp [hd, procFrames]
  show (if initRS.done = true then (initRS, ([] : List Ev))
    else if (procFrames (splitFrames (initRS.buf ++ mkFrame t)).dropLast).2 = true then
      ({ buf := [], done := true }, (procFrames (splitFrames (initRS.buf ++ mkFrame t)).dropLast).1)
    else ({ buf := lastPart (splitFrames (initRS.buf ++ mkFrame t)), done := false },
          (procFrames (splitFrames (initRS.buf ++ mkFrame t)).dropLast).1)) = (initRS, [Ev.tok t])
  rw [if_neg (by simp [initRS]), show initRS.buf ++ mkFrame t = mkFrame t from rfl, hproc,
    if_neg (by simp), hsp]
  rfl

theorem feed_doneFrame :
    feed initRS (mkFrame doneLit) = ({ buf := [], done := true }, [Ev.fin]) := by decide

theorem runFeed_frames (ts : List (List Char)) (h : ∀ t ∈ ts, '\n' ∉ t ∧ t ≠ doneLit) :
    runFeed initRS (ts.map mkFrame) = (initRS, ts.map Ev.tok) := by
  induction ts with
  | nil => rfl
  | cons t ts ih =>
    obtain ⟨h1, h2⟩ := h t (List.mem_cons_self t ts)
    rw [List.map_cons, runFeed_cons, feed_mkFrame t h1 h2,
      ih (fun x hx => h x (List.mem_cons_of_mem _ hx))]
    simp

theorem runFeed_done (st : RS) (chunks : List (List Char)) (h : st.done = true) :
    runFeed st chunks = (st, []) := by
  induction chunks with
  | nil => rfl
  | cons c rest ih => simp [runFeed_cons, feed_done st c h, ih]

/-! Counting `onEnd` and `onError` invocations. -/

theorem procFrames_counts (fs : List (List Char)) :
    (procFrames fs).1.count Ev.fin = (if (procFrames fs).2 then 1 else 0) ∧
    (procFrames fs).1.count Ev.err = 0 := by
  induction fs with
  | nil => simp [procFrames]
  | cons f rest ih =>
    rw [procFrames_cons]
    cases frameData f with
    | none => exact ih
    | some d =>
      by_cases hd : d = doneLit
      · simp [hd]
      · simp only [hd, if_false, ite_false]
        refine ⟨?_, ?_⟩
        · rw [List.count_cons]
          simp [ih.1]
        · rw [List.count_cons]
          simp [ih.2]

theorem feed_counts (st : RS) (c : List Char) (h : st.done = false) :
    ((feed st c).2.count Ev.fin = if (feed st c).1.done then 1 else 0) ∧
    (feed st c).2.count Ev.err = 0 := by
  simp only [feed, h, Bool.false_eq_true, if_false]
  by_cases h1 : (procFrames (splitFrames (st.buf ++ c)).dropLast).2 <;>
    simp [h1, (procFrames_counts (splitFrames (st.buf ++ c)).dropLast).1,
      (procFrames_counts (splitFrames (st.buf ++ c)).dropLast).2]

theorem runFeed_counts (chunks : List (List Char)) :
    ∀ st : RS, st.done = false →
    ((runFeed st chunks).2.count Ev.fin = if (runFeed st chunks).1.done then 1 else 0) ∧
    (runFeed st chunks).2.count Ev.err = 0 := by
  induction chunks with
  | nil => intro st h; simp [runFeed, h]
  | cons c rest ih =>
    intro st h
    rw [runFeed_cons]
    cases h2 : (feed st c).1.done with
    | true =>
      rw [runFeed_done _ _ h2]
      simp [List.count_append, (feed_counts st c h).1, (feed_counts st c h).2, h2]
    | false =>
      have hr := ih (feed st c).1 h2
      simp [List.count_append, (feed_counts st c h).1, (feed_counts st c h).2, h2,
        hr.1, hr.2]

theorem runStream_counts (chunks : List (List Char)) :
    (runStream chunks).count Ev.fin = 1 ∧ (runStream chunks).count Ev.err = 0 := by
  have h := runFeed_counts chunks initRS rfl
  unfold runStream
  by_cases hd : (runFeed initRS chunks).1.done = true
  · rw [if_pos hd]
    exact ⟨by rw [h.1, if_pos hd], h.2⟩
  · rw [if_neg hd]
    refine ⟨?_, ?_⟩
    · rw [List.count_append, h.1, if_neg hd]
      simp
    · rw [List.count_append, h.2]
      simp

theorem feed_not_done (st : RS) (c : List Char) (h : st.done = false) :
    feed st c =
      (if (procFrames (splitFrames (st.buf ++ c)).dropLast).2 = true then
        ({ buf := [], done := true }, (procFrames (splitFrames (st.buf ++ c)).dropLast).1)
      else ({ buf := lastPart (splitFrames (st.buf ++ c)), done := false },
            (procFrames (splitFrames (st.buf ++ c)).dropLast).1)) := by
  simp [feed, h]

theorem runFeed_append (xs ys : List (List Char)) :
    ∀ st : RS, runFeed st (xs ++ ys) =
      ((runFeed (runFeed st xs).1 ys).1, (runFeed st xs).2 ++ (runFeed (runFeed st xs).1 ys).2) := by
  induction xs with
  | nil => intro st; simp [runFeed]
  | cons c rest ih =>
    intro st
    rw [List.cons_append, runFeed_cons, ih (feed st c).1, runFeed_cons]
    simp

/-- The full text of a stream of payloads `ts` followed by the `[DONE]` frame. -/
def mkInput (ts : List (List Char)) : List Char := (ts.map mkFrame).flatten ++ mkFrame doneLit

theorem runStream_frames_done (ts : List (List Char))
    (h : ∀ t ∈ ts, '\n' ∉ t ∧ t ≠ doneLit) (junk : List Char) :
    runStream [mkInput ts ++ junk] = ts.map Ev.tok ++ [Ev.fin] := by
  have hflat : (ts.map mkFrame ++ [mkFrame doneLit ++ junk]).flatten = mkInput ts ++ junk := by
    simp [mkInput, List.append_assoc]
  rw [← hflat, ← runStream_join]
  have h2 : feed initRS (mkFrame doneLit ++ junk) = ({ buf := [], done := true }, [Ev.fin]) := by
    rw [feed_append, feed_doneFrame]
    rw [feed_done ({ buf := [], done := true } : RS) junk rfl]
    simp
  have h3 : runFeed initRS [mkFrame doneLit ++ junk] = ({ buf := [], done := true }, [Ev.fin]) := by
    rw [show runFeed initRS [mkFrame doneLit ++ junk] =
      ((runFeed (feed initRS (mkFrame doneLit ++ junk)).1 []).1,
       (feed initRS (mkFrame doneLit ++ junk)).2 ++
         (runFeed (feed initRS (mkFrame doneLit ++ junk)).1 []).2) from rfl, h2]
    simp [runFeed]
  have h1 : runFeed initRS (ts.map mkFrame ++ [mkFrame doneLit ++ junk]) =
      ({ buf := [], done := true }, ts.map Ev.tok ++ [Ev.fin]) := by
    rw [runFeed_append _ _ initRS, runFeed_frames ts h, h3]
  unfold runStream
  rw [h1]
  simp

theorem runStream_frames_partial (ts : List (List Char))
    (h : ∀ t ∈ ts, '\n' ∉ t ∧ t ≠ doneLit) (p : List Char) (hp : splitFrames p = [p]) :
    runStream [(ts.map mkFrame).flatten ++ p] = ts.map Ev.tok ++ [Ev.fin] := by
  have hflat : (ts.map mkFrame ++ [p]).flatten = (ts.map mkFrame).flatten ++ p := by
    simp
  rw [← hflat, ← runStream_join]
  have h2 : feed initRS p = ({ buf := p, done := false }, []) := by
    rw [feed_not_done initRS p rfl, show initRS.buf ++ p = p from rfl, hp]
    simp [procFrames, lastPart]
  have h3 : runFeed initRS [p] = ({ buf := p, done := false }, []) := by
    rw [show runFeed initRS [p] =
      ((runFeed (feed initRS p).1 []).1,
       (feed initRS p).2 ++ (runFeed (feed initRS p).1 []).2) from rfl, h2]
    simp [runFeed]
  have h1 : runFeed initRS (ts.map mkFrame ++ [p]) =
      ({ buf := p, done := false }, ts.map Ev.tok) := by
    rw [runFeed_append _ _ initRS, runFeed_frames ts h, h3]
    simp
  unfold runStream
  rw [h1]
  simp

/-! Cancellation model for the stream handle returned by `streamMessage`
(src/web/app/api.js).  `cancel()` is `() => ctrl.abort()` on the
`AbortController` whose signal was passed to `fetch`.  Aborting makes the
pending `reader.read()` promise reject, which unwinds the `async` body into
`.catch((e) => onError?.(e))`: the error callback runs once.  Events:
`deliver` = a read resolving with a chunk, `eofEv` = a read reporting
end-of-stream, `failEv` = a transport failure, `abortEv` = `cancel()`.
`finished` records that the async body has returned (no further callbacks);
`aborted` records that the abort signal fired. -/

inductive SEvent where
  | deliver (chunk : List Char)
  | eofEv
  | failEv
  | abortEv
deriving DecidableEq, Repr

structure LoopSt where
  rs : RS
  finished : Bool
  aborted : Bool
deriving DecidableEq, Repr

def initLoop : LoopSt := { rs := initRS, finished := false, aborted := false }

def stepEvt (st : LoopSt) (e : SEvent) : LoopSt × List Ev :=
  match e with
  | .abortEv => ({ st with aborted := true }, [])
  | .deliver c =>
    if st.finished then (st, [])
    else if st.aborted then ({ st with finished := true }, [Ev.err])
    else ({ st with rs := (feed st.rs c).1, finished := (feed st.rs c).1.done },
          (feed st.rs c).2)
  | .eofEv =>
    if st.finished then (st, [])
    else if st.aborted then ({ st with finished := true }, [Ev.err])
    else ({ st with finished := true }, [Ev.fin])
  | .failEv =>
    if st.finished then (st, [])
    else ({ st with finished := true }, [Ev.err])

def runEvts (st : LoopSt) : List SEvent → LoopSt × List Ev
  | [] => (st, [])
  | e :: rest =>
    ((runEvts (stepEvt st e).1 rest).1, (stepEvt st e).2 ++ (runEvts (stepEvt st e).1 rest).2)

theorem stepEvt_aborted (st : LoopSt) (e : SEvent) (h : st.aborted = true) :
    (stepEvt st e).1.aborted = true := by
  cases e <;> simp [stepEvt, h] <;> split <;> simp [h] <;> split <;> simp [h]

theorem stepEvt_finished (st : LoopSt) (e : SEvent) (h : st.finished = true) :
    (stepEvt st e).1.finished = true ∧ (stepEvt st e).2 = [] := by
  cases e <;> simp [stepEvt, h]

theorem runEvts_finished (es : List SEvent) :
    ∀ st : LoopSt, st.finished = true → (runEvts st es).2 = [] := by
  induction es with
  | nil => intro st h; rfl
  | cons e rest ih =>
    intro st h
    show ((stepEvt st e).2 ++ (runEvts (stepEvt st e).1 rest).2) = []
    rw [(stepEvt_finished st e h).2, ih _ (stepEvt_finished st e h).1]
    rfl

theorem runEvts_aborted (es : List SEvent) :
    ∀ st : LoopSt, st.aborted = true →
      (∀ ev ∈ (runEvts st es).2, ev = Ev.err) ∧ (runEvts st es).2.length ≤ 1 := by
  induction es with
  | nil => intro st h; simp [runEvts]
  | cons e rest ih =>
    intro st h
    have hout : (runEvts st (e :: rest)).2 =
        (stepEvt st e).2 ++ (runEvts (stepEvt st e).1 rest).2 := rfl
    cases e with
    | abortEv =>
      rw [hout]
      have hstep : stepEvt st SEvent.abortEv = ({ st with aborted := true }, []) := rfl
      rw [hstep]
      simpa using ih { st with aborted := true } (by simp)
    | deliver c =>
      rw [hout]
      by_cases hf : st.finished = true
      · simp only [stepEvt, hf, if_pos rfl]
        simpa using ih st h
      · have hstep : stepEvt st (SEvent.deliver c) = ({ st with finished := true }, [Ev.err]) := by
          simp [stepEvt, hf, h]
        rw [hstep, runEvts_finished rest _ (by simp)]
        simp
    | eofEv =>
      rw [hout]
      by_cases hf : st.finished = true
      · simp only [stepEvt, hf, if_pos rfl]
        simpa using ih st h
      · have hstep : stepEvt st SEvent.eofEv = ({ st with finished := true }, [Ev.err]) := by
          simp [stepEvt, hf, h]
        rw [hstep, runEvts_finished rest _ (by simp)]
        simp
    | failEv =>
      rw [hout]
      by_cases hf : st.finished = true
      · simp only [stepEvt, hf, if_pos rfl]
        simpa using ih st h
      · have hstep : stepEvt st SEvent.failEv = ({ st with finished := true }, [Ev.err]) := by
          simp [stepEvt, hf]
        rw [hstep, runEvts_finished rest _ (by simp)]
        simp

/-! Store model: shallow embedding of the reactive store in
src/web/app/store.js.  Server interaction is abstracted by a `Backend` record
of response oracles; every operation returns the new store state together with
the list of observable effects (network calls issued and `alert` dialogs
shown), and `Except` carries an exception escaping to the caller. -/


/-- An entry of the model list returned by `GET /models` (only the `alias`
field is read by the core; named `alias_` because `alias` is reserved). -/
structure ModelInfo where
  alias_ : String
deriving DecidableEq, Repr

/-- Session `meta` object; only the `stream` key is used by the client. -/
structure SessionMeta where
  stream : Option Bool
deriving DecidableEq, Repr

structure Session where
  id : String
  model_alias : String
  use_rag : Bool
  rag_corpus_ids : Option (List String)
  meta : Option SessionMeta
deriving DecidableEq, Repr

structure Message where
  id : Nat
  session_id : String
  role : String
  message_type : String
  content_text : String
  created_at : Nat
deriving DecidableEq, Repr

/-- The reactive store fields used by the session/stream core. -/
structure StoreState where
  modelAlias : String
  useRag : Bool
  useStream : Bool
  ragCorpusIds : List String
  models : List ModelInfo
  sessions : List Session
  activeSessionId : String
  messages : List (String × List Message)
  streaming : Bool
  hasStreamer : Bool
deriving DecidableEq, Repr

/-- Argument object of `ensureActiveSession({ modelAlias, useRag, ragCorpusIds,
useStream })`; `none` models an absent/undefined field. -/
structure CfgArgs where
  modelAlias : Option String
  useRag : Option Bool
  ragCorpusIds : Option (List String)
  useStream : Option Bool
deriving DecidableEq, Repr

/-- Body of `POST /api/chat/sessions` (`meta: { stream }` flattened to `stream`). -/
structure CreateBody where
  model_alias : String
  use_rag : Bool
  rag_corpus_ids : List String
  stream : Bool
deriving DecidableEq, Repr

/-- Body of `PATCH /api/chat/sessions/{id}`; a `none` field was not included. -/
structure PatchBody where
  model_alias : Option String
  use_rag : Option Bool
  rag_corpus_ids : Option (List String)
  metaStream : Option Bool
deriving DecidableEq, Repr

/-- Server response oracles; `Except.error` models a rejected promise. -/
structure Backend where
  create : CreateBody → Except Unit Session
  patch : String → PatchBody → Except Unit Session
  delete : String → Except Unit Unit
  listMsgs : String → Except Unit (List Message)
  sendMsg : String → String → Except Unit Message

/-- Observable effects of a store operation: network calls and alert dialogs. -/
inductive Eff where
  | netCreate (b : CreateBody)
  | netPatch (sid : String) (b : PatchBody)
  | netDelete (sid : String)
  | netListMessages (sid : String)
  | netSendMsg (sid : String) (content : String)
  | netStream (sid : String) (content : String)
  | alertQuotaSessions
  | alertNoModel
  | alertQuotaInput
  | alertQuotaMessages
  | alertSendFailed
deriving DecidableEq, Repr

namespace QUOTA

def MAX_SESSIONS : Nat := 100
def MAX_MSG_PER_SESSION : Nat := 1000
def MAX_INPUT_CHARS : Nat := 4000

end QUOTA

/-- JS `x || y` on strings: the empty string is falsy. -/
def jsOrS (s d : String) : String := if s = "" then d else s

/-- JS `x || y` where `x` may be absent (undefined). -/
def optOr (o : Option String) (d : String) : String :=
  match o with
  | none => d
  | some s => jsOrS s d

/-- Lookup in the `messages` object, `this.messages[sid]`. -/
def lookupA (l : List (String × List Message)) (k : String) : Option (List Message) :=
  (l.find? (fun p => p.1 == k)).map (fun p => p.2)

/-- Assignment `this.messages[k] = v`. -/
def setA (l : List (String × List Message)) (k : String) (v : List Message) :
    List (String × List Message) :=
  match l with
  | [] => [(k, v)]
  | (k2, v2) :: rest => if k2 = k then (k, v) :: rest else (k2, v2) :: setA rest k v

/-- Deletion `delete this.messages[k]`. -/
def eraseA (l : List (String × List Message)) (k : String) : List (String × List Message) :=
  l.filter (fun p => !(p.1 == k))

/-- `modelAlias || this.modelAlias || (this.models[0]?.alias || '')`. -/
def computedAlias (st : StoreState) (a : CfgArgs) : String :=
  optOr a.modelAlias (jsOrS st.modelAlias ((st.models.head?.map ModelInfo.alias_).getD ""))

/-- The create body built in `_createAndActivate`. -/
def mkCreateBody (st : StoreState) (a : CfgArgs) : CreateBody :=
  { model_alias := computedAlias st a
    use_rag := a.useRag.getD false
    rag_corpus_ids := a.ragCorpusIds.getD []
    stream := a.useStream.getD st.useStream }

/-- The patch body built in `_tryPatchConfig` (fields included only when not null). -/
def mkPatchBody (a : CfgArgs) : PatchBody :=
  { model_alias := a.modelAlias
    use_rag := a.useRag
    rag_corpus_ids := a.ragCorpusIds
    metaStream := a.useStream }

/-- Write-back of a created/patched/selected session object into the store
(`this.modelAlias = s.model_alias; ... ; this.useStream = (s.meta && s.meta.stream) ?? this.useStream`). -/
def applySessionCfg (st : StoreState) (s : Session) : StoreState :=
  { st with
    modelAlias := s.model_alias
    useRag := s.use_rag
    ragCorpusIds := s.rag_corpus_ids.getD []
    useStream := (s.meta.bind SessionMeta.stream).getD st.useStream }

/-- `_createAndActivate` of store.js: quota gate, alias fallback, create call,
unshift the created session, activate it and write its configuration back. -/
def _createAndActivate (bk : Backend) (st : StoreState) (a : CfgArgs) :
    Except Unit StoreState × List Eff :=
  if QUOTA.MAX_SESSIONS ≤ st.sessions.length then (Except.ok st, [Eff.alertQuotaSessions])
  else if computedAlias st a = "" then (Except.ok st, [Eff.alertNoModel])
  else
    match bk.create (mkCreateBody st a) with
    | .error e => (Except.error e, [Eff.netCreate (mkCreateBody st a)])
    | .ok s =>
      (Except.ok { applySessionCfg st s with
          sessions := s :: st.sessions
          activeSessionId := s.id
          messages := setA st.messages s.id [] },
       [Eff.netCreate (mkCreateBody st a)])

/-- Arguments of the fallback `_createAndActivate` call inside the catch of
`_tryPatchConfig` (`modelAlias ?? this.modelAlias`, and so on). -/
def fallbackArgs (st : StoreState) (a : CfgArgs) : CfgArgs :=
  { modelAlias := some (a.modelAlias.getD st.modelAlias)
    useRag := some (a.useRag.getD st.useRag)
    ragCorpusIds := some (a.ragCorpusIds.getD st.ragCorpusIds)
    useStream := some (a.useStream.getD st.useStream) }

/-- `_tryPatchConfig` of store.js: try PATCH; on success write the canonical
session back (also into the session list); on rejection fall back to creating
a new session, whose own failure would propagate. -/
def _tryPatchConfig (bk : Backend) (st : StoreState) (sessionId : String) (a : CfgArgs) :
    Except Unit StoreState × List Eff :=
  match bk.patch sessionId (mkPatchBody a) with
  | .ok updated =>
    (Except.ok { applySessionCfg st updated with
        sessions :=
          match st.sessions.findIdx? (fun s => s.id == sessionId) with
          | some idx => st.sessions.set idx updated
          | none => st.sessions },
     [Eff.netPatch sessionId (mkPatchBody a)])
  | .error _ =>
    ((_createAndActivate bk st (fallbackArgs st a)).1,
     Eff.netPatch sessionId (mkPatchBody a) :: (_createAndActivate bk st (fallbackArgs st a)).2)

/-- `ensureActiveSession` of store.js (the reconcile operation): create when no
session exists; otherwise select the first session if none is active, then
patch in place when the active session has no messages, else create. -/
def ensureActiveSession (bk : Backend) (st : StoreState) (a : CfgArgs) :
    Except Unit StoreState × List Eff :=
  match st.sessions with
  | [] => _createAndActivate bk st a
  | s0 :: _ =>
    let st1 := if st.activeSessionId = "" then { st with activeSessionId := s0.id } else st
    if 0 < ((lookupA st1.messages st1.activeSessionId).getD []).length then
      _createAndActivate bk st1 a
    else
      _tryPatchConfig bk st1 st1.activeSessionId a

/-- `switchSession` of store.js: no-op when already active; otherwise activate,
fetch the message list (keeping the cached/empty list on failure) and copy the
session's configuration into the snapshot. -/
def switchSession (bk : Backend) (st : StoreState) (sessionId : String) :
    StoreState × List Eff :=
  if sessionId = st.activeSessionId then (st, [])
  else
    let st1 := { st with activeSessionId := sessionId }
    let st2 :=
      match bk.listMsgs sessionId with
      | .ok msgs => { st1 with messages := setA st1.messages sessionId msgs }
      | .error _ =>
        { st1 with messages :=
            (setA st1.messages sessionId ((lookupA st1.messages sessionId).getD [])) }
    match st2.sessions.find? (fun s => s.id == sessionId) with
    | some s => (applySessionCfg st2 s, [Eff.netListMessages sessionId])
    | none => (st2, [Eff.netListMessages sessionId])

/-- Body of `deleteSession` after the remote delete call: unconditional local
cleanup, then reactivation of the first remaining session (the inner
`switchSession` call receives the already-updated active id). -/
def deleteSessionBody (bk : Backend) (st : StoreState) (sessionId : String) :
    StoreState × List Eff :=
  let st1 := { st with
    sessions := st.sessions.filter (fun s => !(s.id == sessionId))
    messages := eraseA st.messages sessionId }
  if st.activeSessionId = sessionId then
    let newActive := (st1.sessions.head?.map Session.id).getD ""
    let st2 := { st1 with activeSessionId := newActive }
    if newActive ≠ "" then
      ((switchSession bk st2 newActive).1,
       Eff.netDelete sessionId :: (switchSession bk st2 newActive).2)
    else (st2, [Eff.netDelete sessionId])
  else (st1, [Eff.netDelete sessionId])

/-- `deleteSession` of store.js: `try { await api.deleteSession } catch {}`;
the remote outcome is ignored and local cleanup happens either way. -/
def deleteSession (bk : Backend) (st : StoreState) (sessionId : String) :
    StoreState × List Eff :=
  match bk.delete sessionId with
  | .ok _ => deleteSessionBody bk st sessionId
  | .error _ => deleteSessionBody bk st sessionId

/-- The character set stripped by JS `String.prototype.trim` (ECMA-262
WhiteSpace plus LineTerminator): TAB, LF, VT, FF, CR, SPACE, NBSP, Ogham space
mark, the U+2000..U+200A spaces, LINE SEPARATOR, PARAGRAPH SEPARATOR,
NARROW NO-BREAK SPACE, MEDIUM MATHEMATICAL SPACE, IDEOGRAPHIC SPACE and the
byte-order mark U+FEFF. -/
def jsWhitespace (c : Char) : Bool :=
  c.toNat == 0x9 || c.toNat == 0xA || c.toNat == 0xB || c.toNat == 0xC ||
  c.toNat == 0xD || c.toNat == 0x20 || c.toNat == 0xA0 || c.toNat == 0x1680 ||
  (decide (0x2000 ≤ c.toNat) && decide (c.toNat ≤ 0x200A)) ||
  c.toNat == 0x2028 || c.toNat == 0x2029 || c.toNat == 0x202F ||
  c.toNat == 0x205F || c.toNat == 0x3000 || c.toNat == 0xFEFF

example : jsWhitespace ' ' = true := by decide

example : jsWhitespace (Char.ofNat 0xA0) = true := by decide

example : jsWhitespace 'a' = false := by decide

/-- JS `!input.trim()`: true iff the input is entirely whitespace
(`String.prototype.trim` strips leading and trailing whitespace from the
`jsWhitespace` set, so the trimmed string is empty exactly when every
character is whitespace). -/
def jsBlank (input : String) : Bool := input.data.all jsWhitespace

/-- The optimistic local user message of `send`; `now` models `Date.now()`. -/
def mkUserMsg (now : Nat) (sid : String) (input : String) : Message :=
  { id := now
    session_id := sid
    role := "user"
    message_type := "text"
    content_text := input
    created_at := now / 1000 }

/-- The empty assistant placeholder of the streaming branch of `send`. -/
def mkAiMsg (now : Nat) (sid : String) : Message :=
  { id := now + 1
    session_id := sid
    role := "assistant"
    message_type := "text"
    content_text := ""
    created_at := now / 1000 }

/-- `send` of store.js up to and including its synchronous effects (for the
streaming branch, up to the registration of the streamer handle). -/
def send (bk : Backend) (now : Nat) (st : StoreState) (input : String) :
    StoreState × List Eff :=
  if input = "" ∨ jsBlank input = true then (st, [])
  else if QUOTA.MAX_INPUT_CHARS < input.length then (st, [Eff.alertQuotaInput])
  else
    let sid := st.activeSessionId
    let cur := (lookupA st.messages sid).getD []
    if QUOTA.MAX_MSG_PER_SESSION ≤ cur.length then (st, [Eff.alertQuotaMessages])
    else
      let withUser := cur ++ [mkUserMsg now sid input]
      let st1 := { st with messages := setA st.messages sid withUser }
      if st.useStream = false then
        match bk.sendMsg sid input with
        | .ok ans =>
          ({ st1 with messages :=
              (setA st1.messages sid (((lookupA st1.messages sid).getD []) ++ [ans])) },
           [Eff.netSendMsg sid input])
        | .error _ => (st1, [Eff.netSendMsg sid input, Eff.alertSendFailed])
      else
        ({ st1 with
            streaming := true
            hasStreamer := true
            messages :=
              (setA st1.messages sid
                (((lookupA st1.messages sid).getD []) ++ [mkAiMsg now sid])) },
         [Eff.netStream sid input])

/-- `stopStream` of store.js: abort the handle if present, then mark idle. -/
def stopStream (st : StoreState) : StoreState :=
  { st with streaming := false, hasStreamer := false }

/-- JS `Array.prototype.findIndex` (as an optional index). -/
def findIndexA (p : Message → Bool) : List Message → Option Nat
  | [] => none
  | x :: xs => if p x then some 0 else (findIndexA p xs).map (· + 1)

/-- In-place array update `list[i] = v`. -/
def setAt : List Message → Nat → Message → List Message
  | [], _, _ => []
  | _ :: xs, 0, v => v :: xs
  | x :: xs, n + 1, v => x :: setAt xs n v

/-- The `onChunk` closure of `send` (store.js): accumulate the delta into `acc`
and write the accumulated text into the entry with id `aiMsgId`, if present
(`if (lastIdx >= 0)`); an absent id leaves the list unchanged. -/
def onChunkStep (aiMsgId : Nat) (acc tok : String) (list : List Message) :
    String × List Message :=
  match findIndexA (fun m => m.id == aiMsgId) list with
  | none => (acc ++ tok, list)
  | some i =>
    match list.get? i with
    | none => (acc ++ tok, list)
    | some m => (acc ++ tok, setAt list i { m with content_text := acc ++ tok })

/-! Transport interceptors (src/web/app/api.js and src/web/app/api/http.js). -/

/-- Browser-visible authentication state: the persisted bearer token
(`localStorage 'token'`) and the location hash. -/
structure AuthEnv where
  tokenStore : Option String
  hash : String
deriving DecidableEq, Repr

/-- Response interceptor of the axios instance in src/web/app/api.js: on 401,
remove the stored token and navigate to the login view; always reject. -/
def respInterceptor (status : Nat) (env : AuthEnv) : AuthEnv × Bool :=
  if status = 401 then ({ tokenStore := none, hash := "#/login" }, true)
  else (env, true)

/-- Response interceptor of the axios instance in src/web/app/api/http.js: on
401, navigate to the login view (the token is not removed); always reject. -/
def httpRespInterceptor (status : Nat) (env : AuthEnv) : AuthEnv × Bool :=
  if status = 401 then ({ env with hash := "#/login" }, true)
  else (env, true)

/-! Support lemmas about the store operations. -/

theorem switchSession_self_eq (bk : Backend) (st : StoreState) (x : String)
    (h : st.activeSessionId = x) : switchSession bk st x = (st, []) := by
  simp [switchSession, h]

theorem lookupA_eraseA (l : List (String × List Message)) (k : String) :
    lookupA (eraseA l k) k = none := by
  induction l with
  | nil => rfl
  | cons p rest ih =>
    cases h : (p.1 == k) with
    | true => simpa [eraseA, List.filter_cons, h] using ih
    | false =>
      simp only [eraseA, List.filter_cons, h, Bool.not_false, if_true] at ih ⊢
      simpa [lookupA, List.find?_cons, h] using ih

theorem filter_erased_sessions (l : List Session) (sid : String) :
    (l.filter (fun s => !(s.id == sid))).filter (fun s => s.id == sid) = [] := by
  apply List.filter_eq_nil_iff.mpr
  intro s hs
  have := (List.mem_filter.mp hs).2
  simp at this ⊢
  exact this

theorem deleteSessionBody_state (bk : Backend) (st : StoreState) (sid : String) :
    (deleteSessionBody bk st sid).1.sessions = st.sessions.filter (fun s => !(s.id == sid)) ∧
    (deleteSessionBody bk st sid).1.messages = eraseA st.messages sid := by
  simp only [deleteSessionBody]
  by_cases h1 : st.activeSessionId = sid
  · rw [if_pos h1]
    by_cases h2 : ((((st.sessions.filter (fun s => !(s.id == sid))).head?.map Session.id).getD "") ≠ "")
    · rw [if_pos h2, switchSession_self_eq bk _ _ rfl]
      exact ⟨rfl, rfl⟩
    · rw [if_neg h2]
      exact ⟨rfl, rfl⟩
  · rw [if_neg h1]
    exact ⟨rfl, rfl⟩

/-! Concrete fixtures used by witnesses and counterexamples. -/

def baseSt : StoreState :=
  { modelAlias := "m1"
    useRag := false
    useStream := true
    ragCorpusIds := []
    models := []
    sessions := []
    activeSessionId := ""
    messages := []
    streaming := false
    hasStreamer := false }

def cexSession : Session :=
  { id := "s0"
    model_alias := "m1"
    use_rag := false
    rag_corpus_ids := none
    meta := none }

/-- A store already holding `MAX_SESSIONS` sessions, the active one empty. -/
def quotaSt : StoreState :=
  { baseSt with
    sessions := List.replicate 100 cexSession
    activeSessionId := "s0" }

/-- A store with one active empty session. -/
def stOne : StoreState :=
  { baseSt with
    sessions := [cexSession]
    activeSessionId := "s0" }

/-- A store whose active session holds one message. -/
def stWithMsg : StoreState :=
  { stOne with messages := [("s0", [mkUserMsg 1 "s0" "hi"])] }

/-- A backend whose every call fails. -/
def noBackend : Backend :=
  { create := fun _ => Except.error ()
    patch := fun _ _ => Except.error ()
    delete := fun _ => Except.error ()
    listMsgs := fun _ => Except.error ()
    sendMsg := fun _ _ => Except.error () }

/-- The canonical session a test backend returns from a create call. -/
def mkServerSession (b : CreateBody) : Session :=
  { id := "s9"
    model_alias := b.model_alias
    use_rag := b.use_rag
    rag_corpus_ids := some b.rag_corpus_ids
    meta := some { stream := some b.stream } }

/-- A backend that accepts create calls and rejects everything else. -/
def okCreateBk : Backend :=
  { noBackend with create := fun b => Except.ok (mkServerSession b) }

/-- Reconcile arguments requesting model alias `m2`. -/
def cfgM2 : CfgArgs :=
  { modelAlias := some "m2", useRag := none, ragCorpusIds := none, useStream := none }

/-! Claim theorems. -/

/-- Claim C4: whenever the session count is at least `MAX_SESSIONS` (100), the
session-creation branch of reconcile fails with the `QuotaExceeded` warning
(the quota alert) and issues zero network calls: the create endpoint is never
contacted and the store state — in particular the session set — is unchanged. -/
theorem create_branch_quota_guard (bk : Backend) (st : StoreState) (a : CfgArgs)
    (h : QUOTA.MAX_SESSIONS ≤ st.sessions.length) :
    _createAndActivate bk st a = (Except.ok st, [Eff.alertQuotaSessions]) := by
  simp [_createAndActivate, h]

/-- Witness for C4 at a concrete store holding exactly 100 sessions. -/
theorem create_branch_quota_guard_witness :
    QUOTA.MAX_SESSIONS ≤ quotaSt.sessions.length ∧
    _createAndActivate noBackend quotaSt cfgM2 = (Except.ok quotaSt, [Eff.alertQuotaSessions]) :=
  ⟨by decide, create_branch_quota_guard noBackend quotaSt cfgM2 (by decide)⟩

/-- Claim C5: the streaming reader is chunk-boundary invariant (tokens depend
only on the concatenated text); for any frame sequence it emits one token per
complete `data: ` frame in order with the prefix stripped, the `[DONE]`
sentinel produces no token and everything after it is ignored, a final partial
frame with no terminator is discarded; every run invokes `onEnd` exactly once
and `onError` never; and the concrete input
`"data: hello\n\ndata: world\n\ndata: [DONE]\n\n"` yields tokens `hello`,
`world`, then one `onEnd`. -/
theorem stream_reader_contract :
    (∀ chunks : List (List Char), runStream chunks = runStream [chunks.flatten]) ∧
    (∀ ts : List (List Char), (∀ t ∈ ts, '\n' ∉ t ∧ t ≠ doneLit) →
      ∀ junk : List Char, runStream [mkInput ts ++ junk] = ts.map Ev.tok ++ [Ev.fin]) ∧
    (∀ ts : List (List Char), (∀ t ∈ ts, '\n' ∉ t ∧ t ≠ doneLit) →
      ∀ p : List Char, splitFrames p = [p] →
        runStream [(ts.map mkFrame).flatten ++ p] = ts.map Ev.tok ++ [Ev.fin]) ∧
    (∀ chunks : List (List Char),
      (runStream chunks).count Ev.fin = 1 ∧ (runStream chunks).count Ev.err = 0) ∧
    runStream [String.toList "data: hello\n\ndata: world\n\ndata: [DONE]\n\n"] =
      [Ev.tok "hello".toList, Ev.tok "world".toList, Ev.fin] :=
  ⟨runStream_join,
   fun ts h junk => runStream_frames_done ts h junk,
   fun ts h p hp => runStream_frames_partial ts h p hp,
   runStream_counts,
   by decide⟩

/-- Witness for C5: the frame split across two chunks (`"data: hel"` then the
rest) yields the same tokens, and the generic frame theorem applied at the
concrete payloads `hello`, `world` with its hypotheses discharged. -/
theorem stream_reader_contract_witness :
    runStream ["data: hel".toList, "lo\n\ndata: world\n\ndata: [DONE]\n\n".toList] =
      [Ev.tok "hello".toList, Ev.tok "world".toList, Ev.fin] ∧
    runStream [mkInput ["hello".toList, "world".toList]] =
      [Ev.tok "hello".toList, Ev.tok "world".toList, Ev.fin] := by
  constructor
  · rw [stream_reader_contract.1 ["data: hel".toList, "lo\n\ndata: world\n\ndata: [DONE]\n\n".toList],
      show (["data: hel".toList, "lo\n\ndata: world\n\ndata: [DONE]\n\n".toList] : List (List Char)).flatten
        = String.toList "data: hello\n\ndata: world\n\ndata: [DONE]\n\n" from by decide]
    exact stream_reader_contract.2.2.2.2
  · have h := stream_reader_contract.2.1 ["hello".toList, "world".toList] (by decide) []
    simpa using h

/-- Claim C7: `deleteSession` removes the session from the local session list
and removes its message cache unconditionally — the backend delete call may
succeed or fail (`bk` is arbitrary, including one whose delete always rejects);
afterwards no session with the deleted id remains and the message cache has no
entry for it. -/
theorem deleteSession_purges_locally (bk : Backend) (st : StoreState) (sid : String) :
    (deleteSession bk st sid).1.sessions.filter (fun s => s.id == sid) = [] ∧
    lookupA (deleteSession bk st sid).1.messages sid = none := by
  unfold deleteSession
  cases bk.delete sid with
  | ok u =>
    rw [(deleteSessionBody_state bk st sid).1, (deleteSessionBody_state bk st sid).2]
    exact ⟨filter_erased_sessions _ _, lookupA_eraseA _ _⟩
  | error e =>
    rw [(deleteSessionBody_state bk st sid).1, (deleteSessionBody_state bk st sid).2]
    exact ⟨filter_erased_sessions _ _, lookupA_eraseA _ _⟩

/-- Claim C9 (amended): on a 401 response the api.js interceptor clears the
stored bearer credential, navigates to the login view and rejects, while the
api/http.js interceptor navigates and rejects but leaves the credential
stored. -/
theorem auth401_interceptors (env : AuthEnv) :
    respInterceptor 401 env = ({ tokenStore := none, hash := "#/login" }, true) ∧
    httpRespInterceptor 401 env = ({ env with hash := "#/login" }, true) :=
  ⟨rfl, rfl⟩

/-- Counterexample to C9 as stated: the api/http.js interceptor handles a 401
carrying a stored token without clearing it, so "the stored bearer credential
is cleared" fails for that transport. -/
theorem auth401_http_keeps_token_cex :
    (httpRespInterceptor 401 { tokenStore := some "tok", hash := "" }).1.tokenStore
      = some "tok" ∧ some "tok" ≠ (none : Option String) :=
  ⟨rfl, by decide⟩

/-- Claim C10: calling `switchSession` with the currently active session id is
a complete no-op: the state (active id, message caches, configuration
snapshot) is returned unchanged and no effect — in particular no network
call — is produced. -/
theorem switchSession_active_noop (bk : Backend) (st : StoreState) :
    switchSession bk st st.activeSessionId = (st, []) :=
  switchSession_self_eq bk st st.activeSessionId rfl

/-- Claim C1 (amended): once the handle's `cancel()` (the abort) has fired, no
further `onChunk` or `onEnd` callback is ever invoked and repeated `cancel()`
is a no-op (same state, no callback); however the pending read's rejection may
still invoke `onError` once, so the residual callbacks are at most one `err`
and nothing else. -/
theorem stream_cancel_quiescent (st : LoopSt) (es : List SEvent) (h : st.aborted = true) :
    (∀ ev ∈ (runEvts st es).2, ev = Ev.err) ∧
    (runEvts st es).2.length ≤ 1 ∧
    stepEvt st SEvent.abortEv = (st, []) := by
  refine ⟨(runEvts_aborted es st h).1, (runEvts_aborted es st h).2, ?_⟩
  show ({ st with aborted := true }, ([] : List Ev)) = (st, [])
  have hst : ({ st with aborted := true } : LoopSt) = st := by
    cases st with
    | mk rs fin ab =>
      simp only [LoopSt.aborted] at h
      rw [h]
  rw [hst]

/-- Witness for C1 at a concrete aborted stream receiving a chunk and EOF. -/
theorem stream_cancel_quiescent_witness :
    ({ rs := initRS, finished := false, aborted := true } : LoopSt).aborted = true ∧
    ((∀ ev ∈ (runEvts { rs := initRS, finished := false, aborted := true }
        [SEvent.deliver ['x'], SEvent.eofEv]).2, ev = Ev.err) ∧
     (runEvts { rs := initRS, finished := false, aborted := true }
        [SEvent.deliver ['x'], SEvent.eofEv]).2.length ≤ 1 ∧
     stepEvt { rs := initRS, finished := false, aborted := true } SEvent.abortEv =
       ({ rs := initRS, finished := false, aborted := true }, [])) :=
  ⟨rfl, stream_cancel_quiescent { rs := initRS, finished := false, aborted := true }
    [SEvent.deliver ['x'], SEvent.eofEv] rfl⟩

/-- Counterexample to C1 as stated: cancelling an in-flight stream and letting
the aborted read settle invokes `onError` (the fetch rejection reaches the
`.catch` handler), so "no further onToken/onChunk, onEnd, **or onError**
callback is ever invoked after cancel() returns" fails. -/
theorem cancel_then_error_cex :
    (runEvts initLoop [SEvent.abortEv, SEvent.deliver ['x']]).2 = [Ev.err] := rfl

/-! Claim C6 support: behaviour of the `onChunk` closure. -/

theorem findIndexA_append (p : Message → Bool) (pre rest : List Message)
    (h : ∀ x ∈ pre, p x = false) :
    findIndexA p (pre ++ rest) = (findIndexA p rest).map (pre.length + ·) := by
  induction pre with
  | nil =>
    cases hr : findIndexA p rest <;> simp [hr]
  | cons x pre ih =>
    have hx : p x = false := h x (List.mem_cons_self x pre)
    simp only [List.cons_append, findIndexA, hx, Bool.false_eq_true, if_false,
      List.append_eq]
    rw [ih (fun y hy => h y (List.mem_cons_of_mem _ hy))]
    cases findIndexA p rest with
    | none => simp
    | some i =>
      simp only [Option.map_some', Option.some.injEq, List.length_cons]
      omega

theorem get?_append_length (pre : List Message) (m : Message) (post : List Message) :
    (pre ++ m :: post).get? pre.length = some m := by
  induction pre with
  | nil => rfl
  | cons x pre ih => simpa using ih

theorem setAt_append_length (pre : List Message) (m v : Message) (post : List Message) :
    setAt (pre ++ m :: post) pre.length v = pre ++ v :: post := by
  induction pre with
  | nil => rfl
  | cons x pre ih => simp [setAt, ih]

theorem onChunkStep_found (aiId : Nat) (acc tok : String) (pre : List Message) (m : Message)
    (post : List Message) (hpre : ∀ x ∈ pre, (x.id == aiId) = false) (hm : m.id = aiId) :
    onChunkStep aiId acc tok (pre ++ m :: post) =
      (acc ++ tok, pre ++ { m with content_text := acc ++ tok } :: post) := by
  unfold onChunkStep
  rw [findIndexA_append _ _ _ hpre]
  have h0 : findIndexA (fun x => x.id == aiId) (m :: post) = some 0 := by
    simp [findIndexA, hm]
  rw [h0]
  simp only [Option.map_some', Nat.add_zero]
  rw [get?_append_length]
  dsimp only
  rw [setAt_append_length]

theorem filter_id_none (aiId : Nat) (l : List Message)
    (h : ∀ x ∈ l, (x.id == aiId) = false) :
    l.filter (fun x => x.id == aiId) = [] := by
  apply List.filter_eq_nil_iff.mpr
  intro x hx
  simp [h x hx]

/-- Claim C6 (amended): during streaming, `send` has already inserted an empty
assistant entry with the stream's message id; each `onChunk` delta is
accumulated and the accumulated text written into that entry, so applying the
step with `"a"` and then `"b"` leaves exactly one message with that id, whose
content is the concatenation `"ab"`, and all other entries unchanged.  (The
claimed insert-if-absent behaviour does not exist: an absent id drops the
update, see the counterexample.) -/
theorem onChunk_accumulates (aiId : Nat) (pre post : List Message) (m : Message) (a b : String)
    (hpre : ∀ x ∈ pre, x.id ≠ aiId) (hm : m.id = aiId) (hpost : ∀ x ∈ post, x.id ≠ aiId) :
    (onChunkStep aiId (onChunkStep aiId "" a (pre ++ m :: post)).1 b
        (onChunkStep aiId "" a (pre ++ m :: post)).2).2 =
      pre ++ { m with content_text := a ++ b } :: post ∧
    (onChunkStep aiId (onChunkStep aiId "" a (pre ++ m :: post)).1 b
        (onChunkStep aiId "" a (pre ++ m :: post)).2).2.filter (fun x => x.id == aiId) =
      [{ m with content_text := a ++ b }] ∧
    (onChunkStep aiId (onChunkStep aiId "" a (pre ++ m :: post)).1 b
        (onChunkStep aiId "" a (pre ++ m :: post)).2).1 = a ++ b := by
  have hpreB : ∀ x ∈ pre, (x.id == aiId) = false := by
    intro x hx
    simpa using hpre x hx
  have h1 := onChunkStep_found aiId "" a pre m post hpreB hm
  have h2 := onChunkStep_found aiId ("" ++ a) b pre { m with content_text := "" ++ a } post
    hpreB (by simpa using hm)
  rw [h1]
  rw [h2]
  have hcontent : ({ { m with content_text := "" ++ a } with content_text := ("" ++ a) ++ b }
      : Message) = { m with content_text := a ++ b } := by
    cases m
    rfl
  refine ⟨by rw [hcontent], ?_, rfl⟩
  rw [hcontent, List.filter_append, List.filter_cons,
    filter_id_none aiId pre hpreB,
    filter_id_none aiId post (fun x hx => by simpa using hpost x hx)]
  simp [hm]

/-- Witness for C6 at the concrete post-`send` state `[mkAiMsg 0 "s0"]`. -/
theorem onChunk_accumulates_witness :
    (mkAiMsg 0 "s0").id = 1 ∧
    (onChunkStep 1 (onChunkStep 1 "" "a" [mkAiMsg 0 "s0"]).1 "b"
        (onChunkStep 1 "" "a" [mkAiMsg 0 "s0"]).2).2 =
      [{ mkAiMsg 0 "s0" with content_text := "a" ++ "b" }] := by
  have h := onChunk_accumulates 1 [] [] (mkAiMsg 0 "s0") "a" "b"
    (by intro x hx; cases hx) rfl (by intro x hx; cases hx)
  exact ⟨rfl, by simpa using h.1⟩

/-- Counterexample to C6 as stated: when the message id is not present in the
list, the `onChunk` code (`if (lastIdx >= 0)`) drops the update — no empty
entry is inserted, so after deltas `"a"` and `"b"` the list is still empty
rather than holding one message with content `"ab"`. -/
theorem onChunk_absent_id_cex :
    (onChunkStep 7 (onChunkStep 7 "" "a" []).1 "b" (onChunkStep 7 "" "a" []).2).2 = [] := rfl

/-- Claim C8 (amended): an input longer than `MAX_INPUT_CHARS` (4000) never
reaches the network and leaves the store — in particular the active session's
message list — unchanged; if the input is not entirely whitespace the
rejection is the `QuotaExceeded` warning, while an all-whitespace over-long
input is rejected silently by the preceding blank-input guard. -/
theorem send_overlong_rejected (bk : Backend) (now : Nat) (st : StoreState) (input : String)
    (h : QUOTA.MAX_INPUT_CHARS < input.length) :
    (send bk now st input).1 = st ∧
    ((send bk now st input).2 = [] ∨ (send bk now st input).2 = [Eff.alertQuotaInput]) ∧
    (jsBlank input = false → (send bk now st input).2 = [Eff.alertQuotaInput]) := by
  by_cases hb : input = "" ∨ jsBlank input = true
  · unfold send
    rw [if_pos hb]
    refine ⟨rfl, Or.inl rfl, fun hf => ?_⟩
    rcases hb with hb | hb
    · subst hb
      simp [jsBlank] at hf
    · rw [hb] at hf
      cases hf
  · unfold send
    rw [if_neg hb, if_pos h]
    exact ⟨rfl, Or.inr rfl, fun _ => rfl⟩

/-- A 4001-character non-blank input. -/
def longInput : String := String.mk (List.replicate 4001 'a')

theorem longInput_length : longInput.length = 4001 := by
  show (List.replicate 4001 'a').length = 4001
  rw [List.length_replicate]

theorem jsBlank_longInput : jsBlank longInput = false := by
  show (List.replicate 4001 'a').all jsWhitespace = false
  cases hall : (List.replicate 4001 'a').all jsWhitespace with
  | false => rfl
  | true =>
    exfalso
    have ha := List.all_eq_true.mp hall 'a' (List.mem_replicate.mpr ⟨by decide, rfl⟩)
    exact absurd ha (by decide)

/-- Witness for C8 at the concrete 4001-character input. -/
theorem send_overlong_rejected_witness :
    QUOTA.MAX_INPUT_CHARS < longInput.length ∧ jsBlank longInput = false ∧
    (send noBackend 0 quotaSt longInput).1 = quotaSt ∧
    (send noBackend 0 quotaSt longInput).2 = [Eff.alertQuotaInput] := by
  have hl : QUOTA.MAX_INPUT_CHARS < longInput.length := by
    rw [longInput_length]
    decide
  have h := send_overlong_rejected noBackend 0 quotaSt longInput hl
  exact ⟨hl, jsBlank_longInput, h.1, h.2.2 jsBlank_longInput⟩

/-- A 4001-character all-whitespace input. -/
def blankLong : String := String.mk (List.replicate 4001 ' ')

theorem jsBlank_blankLong : jsBlank blankLong = true := by
  show (List.replicate 4001 ' ').all jsWhitespace = true
  rw [List.all_eq_true]
  intro x hx
  rw [List.eq_of_mem_replicate hx]
  decide

/-- Counterexample to C8 as stated: a 4001-character all-whitespace input is
longer than 4000 characters yet `send` returns without the `QuotaExceeded`
warning (the blank-input guard returns silently first). -/
theorem send_overlong_blank_cex :
    QUOTA.MAX_INPUT_CHARS < blankLong.length ∧
    (send noBackend 0 quotaSt blankLong).2 = [] := by
  constructor
  · show QUOTA.MAX_INPUT_CHARS < (List.replicate 4001 ' ').length
    rw [List.length_replicate]
    decide
  · unfold send
    rw [if_pos (Or.inr jsBlank_blankLong)]

/-! Claims C2 and C3: the reconcile operation. -/

theorem ensure_reduces_patch (bk : Backend) (st : StoreState) (a : CfgArgs)
    (hne : st.sessions ≠ []) (hact : st.activeSessionId ≠ "")
    (hmsg : (lookupA st.messages st.activeSessionId).getD [] = []) :
    ensureActiveSession bk st a = _tryPatchConfig bk st st.activeSessionId a := by
  obtain ⟨s0, rest, hss⟩ : ∃ s0 rest, st.sessions = s0 :: rest := by
    cases h : st.sessions with
    | nil => exact absurd h hne
    | cons x xs => exact ⟨x, xs, rfl⟩
  unfold ensureActiveSession
  rw [hss]
  dsimp only
  rw [if_neg hact, hmsg]
  simp

theorem ensure_reduces_create (bk : Backend) (st : StoreState) (a : CfgArgs)
    (hne : st.sessions ≠ []) (hact : st.activeSessionId ≠ "")
    (hmsg : 0 < ((lookupA st.messages st.activeSessionId).getD []).length) :
    ensureActiveSession bk st a = _createAndActivate bk st a := by
  obtain ⟨s0, rest, hss⟩ : ∃ s0 rest, st.sessions = s0 :: rest := by
    cases h : st.sessions with
    | nil => exact absurd h hne
    | cons x xs => exact ⟨x, xs, rfl⟩
  unfold ensureActiveSession
  rw [hss]
  dsimp only
  rw [if_neg hact, if_pos hmsg]

theorem createAndActivate_ok (bk : Backend) (st : StoreState) (a : CfgArgs) (s : Session)
    (hq : st.sessions.length < QUOTA.MAX_SESSIONS)
    (halias : computedAlias st a ≠ "")
    (hs : bk.create (mkCreateBody st a) = Except.ok s) :
    _createAndActivate bk st a =
      (Except.ok { applySessionCfg st s with
          sessions := s :: st.sessions
          activeSessionId := s.id
          messages := setA st.messages s.id [] },
       [Eff.netCreate (mkCreateBody st a)]) := by
  unfold _createAndActivate
  rw [if_neg (Nat.not_le.mpr hq), if_neg halias, hs]

/-- Claim C2 (amended): when the active session exists and has zero messages,
reconcile with a changed (nonempty) model alias either keeps the same active
session id with the server's canonical configuration written back (patch
accepted) or transparently activates a freshly created session with a new id
(patch rejected) — provided the fallback create is not blocked by the session
quota and the backend create call succeeds with a fresh id; in both cases no
error escapes to the caller. -/
theorem reconcile_empty_patch_or_new (bk : Backend) (st : StoreState) (a : CfgArgs) (m : String)
    (hne : st.sessions ≠ []) (hact : st.activeSessionId ≠ "")
    (hmsg : (lookupA st.messages st.activeSessionId).getD [] = [])
    (hq : st.sessions.length < QUOTA.MAX_SESSIONS)
    (hm : a.modelAlias = some m) (hm0 : m ≠ "")
    (hcr : ∀ b, ∃ s, bk.create b = Except.ok s ∧ s.id ≠ st.activeSessionId) :
    ∃ st2, (ensureActiveSession bk st a).1 = Except.ok st2 ∧
      ((∃ u, bk.patch st.activeSessionId (mkPatchBody a) = Except.ok u ∧
          st2.activeSessionId = st.activeSessionId ∧ st2.modelAlias = u.model_alias) ∨
        st2.activeSessionId ≠ st.activeSessionId) := by
  rw [ensure_reduces_patch bk st a hne hact hmsg]
  unfold _tryPatchConfig
  cases hp : bk.patch st.activeSessionId (mkPatchBody a) with
  | ok u =>
    exact ⟨_, rfl, Or.inl ⟨u, rfl, rfl, rfl⟩⟩
  | error e =>
    obtain ⟨s, hs, hid⟩ := hcr (mkCreateBody st (fallbackArgs st a))
    have halias : computedAlias st (fallbackArgs st a) ≠ "" := by
      simp [computedAlias, fallbackArgs, hm, optOr, jsOrS, hm0]
    rw [createAndActivate_ok bk st (fallbackArgs st a) s hq halias hs]
    exact ⟨_, rfl, Or.inr hid⟩

/-- Witness for C2: one empty active session, a backend that rejects the patch
and accepts the create with fresh id `s9`. -/
theorem reconcile_empty_patch_or_new_witness :
    (lookupA stOne.messages stOne.activeSessionId).getD [] = [] ∧
    (∃ st2, (ensureActiveSession okCreateBk stOne cfgM2).1 = Except.ok st2 ∧
      ((∃ u, okCreateBk.patch stOne.activeSessionId (mkPatchBody cfgM2) = Except.ok u ∧
          st2.activeSessionId = stOne.activeSessionId ∧ st2.modelAlias = u.model_alias) ∨
        st2.activeSessionId ≠ stOne.activeSessionId)) :=
  ⟨rfl, reconcile_empty_patch_or_new okCreateBk stOne cfgM2 "m2" (by decide) (by decide) rfl
    (by decide) rfl (by decide)
    (fun b => ⟨mkServerSession b, rfl, by show ("s9" : String) ≠ "s0"; decide⟩)⟩

/-- Counterexample to C2 as stated: with the session quota already full, a
rejected patch falls back to creation, which the quota guard stops with only
an alert — the call returns the state unchanged, so the caller sees neither an
updated configuration (`modelAlias` stays `m1`, not the requested `m2`) nor a
new session id. -/
theorem reconcile_empty_quota_cex :
    (lookupA quotaSt.messages quotaSt.activeSessionId).getD [] = [] ∧
    (ensureActiveSession noBackend quotaSt cfgM2).1 = Except.ok quotaSt ∧
    quotaSt.activeSessionId = "s0" ∧ quotaSt.modelAlias = "m1" ∧
    cfgM2.modelAlias = some "m2" :=
  ⟨rfl, rfl, rfl, rfl, rfl⟩

/-- Claim C3 (amended): when the active session has at least one message,
reconcile creates a new session with the desired configuration (the create
body built from the requested arguments and the code's defaulting rules) and
makes it active — provided the quota is not exhausted, a usable model alias is
available, and the backend create call succeeds with an id distinct from the
active one; the new active id is the created session's id. -/
theorem reconcile_nonempty_creates_fresh (bk : Backend) (st : StoreState) (a : CfgArgs)
    (s : Session)
    (hne : st.sessions ≠ []) (hact : st.activeSessionId ≠ "")
    (hmsg : 0 < ((lookupA st.messages st.activeSessionId).getD []).length)
    (hq : st.sessions.length < QUOTA.MAX_SESSIONS)
    (halias : computedAlias st a ≠ "")
    (hcr : bk.create (mkCreateBody st a) = Except.ok s)
    (hid : s.id ≠ st.activeSessionId) :
    (ensureActiveSession bk st a).1 = Except.ok { applySessionCfg st s with
        sessions := s :: st.sessions
        activeSessionId := s.id
        messages := setA st.messages s.id [] } ∧
    (ensureActiveSession bk st a).2 = [Eff.netCreate (mkCreateBody st a)] ∧
    s.id ≠ st.activeSessionId := by
  rw [ensure_reduces_create bk st a hne hact hmsg,
    createAndActivate_ok bk st a s hq halias hcr]
  exact ⟨rfl, rfl, hid⟩

/-- Witness for C3: an active session holding one message, a backend whose
create call returns the canonical session with fresh id `s9`. -/
theorem reconcile_nonempty_creates_fresh_witness :
    0 < ((lookupA stWithMsg.messages stWithMsg.activeSessionId).getD []).length ∧
    (ensureActiveSession okCreateBk stWithMsg cfgM2).2 =
      [Eff.netCreate (mkCreateBody stWithMsg cfgM2)] ∧
    (mkServerSession (mkCreateBody stWithMsg cfgM2)).id ≠ stWithMsg.activeSessionId := by
  have h := reconcile_nonempty_creates_fresh okCreateBk stWithMsg cfgM2
    (mkServerSession (mkCreateBody stWithMsg cfgM2))
    (by decide) (by decide) (by decide) (by decide) (by decide) rfl (by decide)
  exact ⟨by decide, h.2.1, h.2.2⟩

/-- A quota-full store whose active session holds one message. -/
def quotaStMsg : StoreState :=
  { quotaSt with messages := [("s0", [mkUserMsg 1 "s0" "hi"])] }

/-- Counterexample to C3 as stated: with the quota full, the creation branch
stops at the quota guard; the call completes with the state unchanged and the
active session id is still the previous one, not a new id. -/
theorem reconcile_nonempty_quota_cex :
    0 < ((lookupA quotaStMsg.messages quotaStMsg.activeSessionId).getD []).length ∧
    (ensureActiveSession noBackend quotaStMsg cfgM2).1 = Except.ok quotaStMsg ∧
    quotaStMsg.activeSessionId = "s0" :=
  ⟨by decide, rfl, rfl⟩

end ChatClient
